import Mathlib

/-!
Verification of the interaction / animation core of the `playground` scene demo.

The definitions below are a shallow embedding of the Rust source:
`f32` values are modelled as rationals (`ℚ`), Bevy components become plain
structures, and each per-frame system becomes a pure function from its inputs
(previous state, per-tick inputs such as the overlap scan, elapsed/delta time,
pending events) to its outputs.
-/

namespace Playground

/-- A 2D vector, standing for Bevy `Vec2` / `Transform.translation.truncate()`. -/
structure Vec2 where
  x : ℚ
  y : ℚ
deriving DecidableEq

/-! ## `src/interaction.rs` -/

/-- `aabb_overlap` from `src/interaction.rs`: simple AABB overlap detection
between two centered rectangles. -/
def aabb_overlap (pos_1 : Vec2) (width_1 height_1 : ℚ) (pos_2 : Vec2)
    (width_2 height_2 : ℚ) : Bool :=
  let half_width_1 := width_1 / 2
  let half_height_1 := height_1 / 2
  let half_width_2 := width_2 / 2
  let half_height_2 := height_2 / 2
  let left_1 := pos_1.x - half_width_1
  let right_1 := pos_1.x + half_width_1
  let top_1 := pos_1.y + half_height_1
  let bottom_1 := pos_1.y - half_height_1
  let left_2 := pos_2.x - half_width_2
  let right_2 := pos_2.x + half_width_2
  let top_2 := pos_2.y + half_height_2
  let bottom_2 := pos_2.y - half_height_2
  !(decide (right_1 < left_2) || decide (left_1 > right_2)
    || decide (top_1 < bottom_2) || decide (bottom_1 > top_2))

/-- The proximity state of the (single) interactor: the optional `InRange`
component on the interactor, and for each interactable id the optional
`Highlight` component (carrying its `elapsed_offset`). -/
structure ProxState where
  inRange : Option String
  highlight : String → Option ℚ

/-- The result of the scan loop of `detect_overlaps`: `found_overlap` is
updated to the id of every overlapping interactable in iteration order, so it
ends as the last overlapping one (or `none`).  The scan is given as the list
of `(id, overlaps?)` pairs in iteration order. -/
def found_overlap (scan : List (String × Bool)) : Option String :=
  scan.foldl (fun acc e => if e.2 then some e.1 else acc) none

/-- The `else` arm of the scan loop of `detect_overlaps`: every interactable
that does not overlap has its `Highlight` component removed. -/
def strip_highlights (scan : List (String × Bool)) (hl : String → Option ℚ) :
    String → Option ℚ :=
  scan.foldl (fun h e => if e.2 then h else fun x => if x = e.1 then none else h x) hl

/-- `detect_overlaps` from `src/interaction.rs`, for one interactor and one
tick: strips highlights from non-overlapping interactables during the scan,
then updates the `InRange` edge (and attaches a fresh `Highlight` carrying the
current elapsed time) according to the `(currently_in_range, found_overlap)`
match. -/
def detect_overlaps (s : ProxState) (scan : List (String × Bool)) (elapsed : ℚ) :
    ProxState :=
  let hl := strip_highlights scan s.highlight
  match s.inRange, found_overlap scan with
  | none, some interactable_id =>
      { inRange := some interactable_id,
        highlight := fun x => if x = interactable_id then some elapsed else hl x }
  | some current_id, some interactable_id =>
      if current_id ≠ interactable_id then
        { inRange := some interactable_id,
          highlight := fun x => if x = interactable_id then some elapsed else hl x }
      else
        { inRange := some current_id, highlight := hl }
  | some _, none => { inRange := none, highlight := hl }
  | none, none => { inRange := none, highlight := hl }

/-! ## `src/animation.rs`, `src/stereo.rs`, `src/theman.rs`: cyclic frame advance -/

/-- The cyclic frame advance performed on timer expiry by `execute_animations`
(`src/animation.rs`), the stereo's `handle_animations` (`src/stereo.rs`) and the
man's `handle_animations` (`src/theman.rs`): on the last frame reset to the
first, otherwise advance. -/
def cyclic_advance (first_index last_index idx : ℕ) : ℕ :=
  if idx = last_index then first_index else idx + 1

/-! ## `src/fireplace.rs`: random non-repeating frame advance -/

/-- The resampling loop of the fireplace's `handle_animations`
(`src/fireplace.rs`): draw `new_index`, and while it equals the current atlas
index, redraw.  The successive draws of `rng.random_range(first..=last)` are
modelled by the stream `draws`; the loop inspects `draws start`,
`draws (start+1)`, … and returns the first one different from `atlas_index`.
`fuel` bounds the number of draws examined: `none` means the loop has not
terminated within `fuel` draws. -/
def resample_loop (draws : ℕ → ℕ) (atlas_index : ℕ) : ℕ → ℕ → Option ℕ
  | _, 0 => none
  | start, fuel + 1 =>
      if draws start = atlas_index then resample_loop draws atlas_index (start + 1) fuel
      else some (draws start)

/-! ## `src/theman.rs`: player behavior state machine -/

/-- The player's behavior `State` from `src/theman.rs`. -/
inductive PState where
  | Idle
  | Action
  | Walking
deriving DecidableEq

/-- The player's `Direction` from `src/theman.rs`. -/
inductive Direction where
  | Left
  | Right
deriving DecidableEq

/-- The `Trigger` message from `src/theman.rs`. -/
structure Trigger where
  state : PState
  direction : Direction
deriving DecidableEq

/-- `WALKING_SPEED` from `src/theman.rs`. -/
def WALKING_SPEED : ℚ := 90

/-- `handle_movement` from `src/theman.rs`: Walking displaces `x` by
`WALKING_SPEED * delta` in the signed direction; Idle and Action leave the
translation untouched. -/
def handle_movement (state : PState) (direction : Direction) (translation : Vec2)
    (delta : ℚ) : Vec2 :=
  match state with
  | .Idle => translation
  | .Action => translation
  | .Walking =>
      match direction with
      | .Left => { translation with x := translation.x - WALKING_SPEED * delta }
      | .Right => { translation with x := translation.x + WALKING_SPEED * delta }

/-- The per-tick keyboard input read by `handle_keys`: `just_pressed` /
`just_released` edge flags and held `pressed` flags for the arrow keys. -/
structure Keyboard where
  just_pressed_left : Bool
  just_pressed_right : Bool
  just_pressed_up : Bool
  pressed_left : Bool
  pressed_right : Bool
  just_released_left : Bool
  just_released_right : Bool

/-- `handle_keys` from `src/theman.rs`: an `if/else if/else if` chain over the
key-down edges writes at most one `Trigger`, and on the ArrowUp branch also
writes an `InteractionEvent` when the player holds an `InRange` component
(`in_range` is its optional id); then the two key-release checks may write
`Idle` triggers.  Returns `(trigger messages, interaction event ids)` in write
order. -/
def handle_keys (keyboard : Keyboard) (in_range : Option String) :
    List Trigger × List String :=
  let press : List Trigger × List String :=
    if keyboard.just_pressed_left then
      ([{ state := .Walking, direction := .Left }], [])
    else if keyboard.just_pressed_right then
      ([{ state := .Walking, direction := .Right }], [])
    else if keyboard.just_pressed_up then
      ([{ state := .Action, direction := .Right }],
        match in_range with
        | some id => [id]
        | none => [])
    else ([], [])
  let release : List Trigger :=
    (if keyboard.just_released_left && !keyboard.pressed_right then
      [{ state := .Idle, direction := .Left }]
    else []) ++
    (if keyboard.just_released_right && !keyboard.pressed_left then
      [{ state := .Idle, direction := .Right }]
    else [])
  (press.1 ++ release, press.2)

/-! ## `src/fireplace.rs` and `src/stereo.rs`: furnishing state machines -/

/-- A furnishing's `State` (fireplace and stereo are structurally identical). -/
inductive FState where
  | Off
  | Running
deriving DecidableEq

/-- A Bevy `Sprite` as the furnishing systems use it: an image handle and an
optional `TextureAtlas` (layout handle and frame index).  Handles are modelled
by their asset path strings. -/
structure Sprite where
  image : String
  texture_atlas : Option (String × ℕ)
deriving DecidableEq

/-- The `SpriteAssets` resource of a furnishing module. -/
structure SpriteAssets where
  running_sprite : String
  running_layout : String
  off_sprite : String
deriving DecidableEq

/-- The components of one furnishing entity that its `Update` systems touch:
behavior state, sprite, the `Interactable.first` flag, and whether its looping
spatial audio sink is playing. -/
structure Furnishing where
  id : String
  state : FState
  sprite : Sprite
  first : Bool
  audio_playing : Bool
deriving DecidableEq

/-- One iteration of the event loop in a furnishing's `handle_interaction`:
on a matching id, toggle the state and swap the sprite; otherwise leave the
furnishing alone.  The `Bool` records whether the `State` component was
written (Bevy's `Changed<State>` flag for this tick). -/
def handle_interaction_step (assets : SpriteAssets) (acc : Furnishing × Bool)
    (event : String) : Furnishing × Bool :=
  if event = acc.1.id then
    match acc.1.state with
    | .Off =>
        ({ acc.1 with
            state := .Running,
            sprite := { image := assets.running_sprite,
                        texture_atlas := some (assets.running_layout, 0) } }, true)
    | .Running =>
        ({ acc.1 with
            state := .Off,
            sprite := { image := assets.off_sprite, texture_atlas := none } }, true)
  else acc

/-- `handle_interaction` from `src/fireplace.rs` / `src/stereo.rs`: reads all
pending `InteractionEvent`s in order. -/
def handle_interaction (assets : SpriteAssets) (f : Furnishing)
    (events : List String) : Furnishing × Bool :=
  events.foldl (handle_interaction_step assets) (f, false)

/-- `handle_interaction_disable_highlight` from `src/fireplace.rs` /
`src/stereo.rs`: when the `State` component changed this tick and is now
`Running`, clear the `Interactable.first` flag. -/
def handle_interaction_disable_highlight (f : Furnishing) (changed : Bool) :
    Furnishing :=
  if changed = true ∧ f.state = FState.Running then { f with first := false } else f

/-- `handle_sound` from `src/fireplace.rs` / `src/stereo.rs`: when the `State`
component changed this tick, play the sink on `Running` and pause it on
`Off`. -/
def handle_sound (f : Furnishing) (changed : Bool) : Furnishing :=
  if changed then
    match f.state with
    | .Running => { f with audio_playing := true }
    | .Off => { f with audio_playing := false }
  else f

/-- One tick of a furnishing's interaction-relevant systems, in the order they
are listed in `add_systems`: `handle_interaction`, then
`handle_interaction_disable_highlight`, then `handle_sound` (the state write is
visible to the later systems within the same tick). -/
def furnishing_tick (assets : SpriteAssets) (f : Furnishing)
    (events : List String) : Furnishing :=
  let step := handle_interaction assets f events
  handle_sound (handle_interaction_disable_highlight step.1 step.2) step.2

/-- Furnishings reachable from an initial one by ticks with arbitrary pending
event lists. -/
inductive ReachableF (assets : SpriteAssets) (start : Furnishing) : Furnishing → Prop
  | refl : ReachableF assets start start
  | step (f : Furnishing) (events : List String) :
      ReachableF assets start f → ReachableF assets start (furnishing_tick assets f events)

/-- The fireplace's `SpriteAssets` as loaded in `init` (`src/fireplace.rs`). -/
def fireplace_assets : SpriteAssets :=
  { running_sprite := "fireplace/fireplace_animation.png",
    running_layout := "fireplace/fireplace_animation_layout",
    off_sprite := "fireplace/fireplace.png" }

/-- The fireplace entity as spawned by `init` (`src/fireplace.rs`): off sprite,
no atlas, `State::Off`, `first: true`, looping spatial audio spawned paused. -/
def fireplace_init : Furnishing :=
  { id := "fireplace",
    state := .Off,
    sprite := { image := fireplace_assets.off_sprite, texture_atlas := none },
    first := true,
    audio_playing := false }

/-- The stereo's `SpriteAssets` as loaded in `init` (`src/stereo.rs`). -/
def stereo_assets : SpriteAssets :=
  { running_sprite := "stereo_animation.png",
    running_layout := "stereo_animation_layout",
    off_sprite := "stereo.png" }

/-- The stereo entity as spawned by `init` (`src/stereo.rs`). -/
def stereo_init : Furnishing :=
  { id := "stereo",
    state := .Off,
    sprite := { image := stereo_assets.off_sprite, texture_atlas := none },
    first := true,
    audio_playing := false }

/-- The interaction-relevant state of the whole scene: the proximity state of
the single interactor (the man) and the two furnishings. -/
structure World where
  prox : ProxState
  fireplace : Furnishing
  stereo : Furnishing

/-- The scene at startup: no `InRange` edge, no `Highlight`s, both furnishings
off with `first = true`. -/
def world_init : World :=
  { prox := { inRange := none, highlight := fun _ => none },
    fireplace := fireplace_init,
    stereo := stereo_init }

/-- One scene tick: `detect_overlaps` runs on the overlap scan of the tick, and
each furnishing consumes the tick's pending `InteractionEvent`s. -/
def world_tick (w : World) (scan : List (String × Bool)) (elapsed : ℚ)
    (events : List String) : World :=
  { prox := detect_overlaps w.prox scan elapsed,
    fireplace := furnishing_tick fireplace_assets w.fireplace events,
    stereo := furnishing_tick stereo_assets w.stereo events }

/-- Scene states reachable from startup by ticks with arbitrary overlap scans,
elapsed times and event lists. -/
inductive ReachableW : World → Prop
  | init : ReachableW world_init
  | step (w : World) (scan : List (String × Bool)) (elapsed : ℚ)
      (events : List String) :
      ReachableW w → ReachableW (world_tick w scan elapsed events)

/-! ## Theorems -/

/-- Claim C3: for all center positions and non-negative widths and heights,
`aabb_overlap` returns `true` iff NOT(right1 < left2 OR left1 > right2 OR
top1 < bottom2 OR bottom1 > top2), where each box's edges lie at its center
coordinate plus/minus half its width (horizontally) and half its height
(vertically). -/
theorem claim_C3 (pos_1 : Vec2) (width_1 height_1 : ℚ) (pos_2 : Vec2)
    (width_2 height_2 : ℚ) (hw1 : 0 ≤ width_1) (hh1 : 0 ≤ height_1)
    (hw2 : 0 ≤ width_2) (hh2 : 0 ≤ height_2) :
    aabb_overlap pos_1 width_1 height_1 pos_2 width_2 height_2 = true ↔
      ¬(pos_1.x + width_1 / 2 < pos_2.x - width_2 / 2 ∨
        pos_1.x - width_1 / 2 > pos_2.x + width_2 / 2 ∨
        pos_1.y + height_1 / 2 < pos_2.y - height_2 / 2 ∨
        pos_1.y - height_1 / 2 > pos_2.y + height_2 / 2) := by
  simp only [aabb_overlap, Bool.not_eq_true', Bool.or_eq_false_iff,
    decide_eq_false_iff_not]
  tauto

/-- Witness for C3: the §8 scenario boxes (centers (0,0) and (5,0), both
10 × 10) do overlap. -/
theorem claim_C3_witness :
    aabb_overlap (Vec2.mk 0 0) 10 10 (Vec2.mk 5 0) 10 10 = true :=
  (claim_C3 (Vec2.mk 0 0) 10 10 (Vec2.mk 5 0) 10 10 (by norm_num) (by norm_num)
    (by norm_num) (by norm_num)).mpr (by norm_num)

/-- Iterating the cyclic advance from the first frame walks up one frame at a
time while it has not yet reached the last frame. -/
theorem cyclic_advance_iterate (first_index last_index : ℕ)
    (hf : first_index ≤ last_index) :
    ∀ k, k ≤ last_index - first_index →
      (cyclic_advance first_index last_index)^[k] first_index = first_index + k := by
  intro k
  induction k with
  | zero => simp
  | succ n ih =>
      intro h
      rw [Function.iterate_succ_apply', ih (Nat.le_of_succ_le h)]
      have hne : first_index + n ≠ last_index := by omega
      simp only [cyclic_advance, hne, if_false]
      omega

/-- Claim C5: for every animation config with `first ≤ last` and current frame
index in `[first, last]`, the cyclic frame advance yields an index in
`[first, last]` (`index == last` maps to `first`, otherwise `index + 1`), and
after exactly `last - first + 1` advances starting from `first` the index
returns to `first`. -/
theorem claim_C5 (first_index last_index idx : ℕ)
    (hf : first_index ≤ last_index) (h1 : first_index ≤ idx)
    (h2 : idx ≤ last_index) :
    (first_index ≤ cyclic_advance first_index last_index idx ∧
      cyclic_advance first_index last_index idx ≤ last_index) ∧
    (cyclic_advance first_index last_index)^[last_index - first_index + 1]
      first_index = first_index := by
  constructor
  · unfold cyclic_advance
    split <;> omega
  · rw [Function.iterate_succ_apply',
      cyclic_advance_iterate first_index last_index hf (last_index - first_index)
        le_rfl]
    have hlast : first_index + (last_index - first_index) = last_index := by omega
    rw [hlast]
    simp [cyclic_advance]

/-- Witness for C5: the man's walking config (frames 0–8): advancing from
frame 8 wraps into range, and 9 advances from frame 0 return to frame 0. -/
theorem claim_C5_witness :
    (0 ≤ cyclic_advance 0 8 8 ∧ cyclic_advance 0 8 8 ≤ 8) ∧
    (cyclic_advance 0 8)^[9] 0 = 0 :=
  claim_C5 0 8 8 (by decide) (by decide) (by decide)

/-- Claim C6: for every tick with delta time `t ≥ 0`, a Walking player moving
Right gains exactly `WALKING_SPEED * t` on `x`, a Walking player moving Left
loses exactly `WALKING_SPEED * t` on `x`, and an Idle or Acting player's
translation (both coordinates) is unchanged by the movement step. -/
theorem claim_C6 (translation : Vec2) (direction : Direction) (t : ℚ)
    (ht : 0 ≤ t) :
    (handle_movement PState.Walking Direction.Right translation t).x =
      translation.x + WALKING_SPEED * t ∧
    (handle_movement PState.Walking Direction.Left translation t).x =
      translation.x - WALKING_SPEED * t ∧
    handle_movement PState.Idle direction translation t = translation ∧
    handle_movement PState.Action direction translation t = translation :=
  ⟨rfl, rfl, rfl, rfl⟩

/-- Witness for C6: a concrete tick of `1/60` seconds from the spawn point. -/
theorem claim_C6_witness :
    (handle_movement PState.Walking Direction.Right (Vec2.mk (-200) (-225))
      (1 / 60)).x = (Vec2.mk (-200) (-225)).x + WALKING_SPEED * (1 / 60) ∧
    (handle_movement PState.Walking Direction.Left (Vec2.mk (-200) (-225))
      (1 / 60)).x = (Vec2.mk (-200) (-225)).x - WALKING_SPEED * (1 / 60) ∧
    handle_movement PState.Idle Direction.Right (Vec2.mk (-200) (-225))
      (1 / 60) = Vec2.mk (-200) (-225) ∧
    handle_movement PState.Action Direction.Right (Vec2.mk (-200) (-225))
      (1 / 60) = Vec2.mk (-200) (-225) :=
  claim_C6 (Vec2.mk (-200) (-225)) Direction.Right (1 / 60) (by norm_num)

/-- `handle_keys` writes the Acting trigger exactly when ArrowUp is
just-pressed and neither ArrowLeft nor ArrowRight is just-pressed (the
`else if` chain gives the walking keys priority). -/
theorem handle_keys_action_trigger (kb : Keyboard) (inr : Option String) :
    ({ state := PState.Action, direction := Direction.Right } : Trigger) ∈
        (handle_keys kb inr).1 ↔
      kb.just_pressed_left = false ∧ kb.just_pressed_right = false ∧
        kb.just_pressed_up = true := by
  obtain ⟨l, r, u, pl, pr, rl, rr⟩ := kb
  cases l <;> cases r <;> cases u <;> cases pl <;> cases pr <;> cases rl <;>
    cases rr <;> simp [handle_keys]

/-- The interaction events written by `handle_keys`: the in-range id exactly
when the ArrowUp branch of the `else if` chain is taken, nothing otherwise. -/
theorem handle_keys_events_eq (kb : Keyboard) (inr : Option String) :
    (handle_keys kb inr).2 =
      if kb.just_pressed_left = false ∧ kb.just_pressed_right = false ∧
          kb.just_pressed_up = true then
        (match inr with | some id => [id] | none => [])
      else [] := by
  obtain ⟨l, r, u, pl, pr, rl, rr⟩ := kb
  cases l <;> cases r <;> cases u <;> simp [handle_keys]

/-- Claim C7: on every tick, the player's action trigger emits an
`InteractionEvent` if and only if the player currently holds an `InRange`
edge, and the emitted event carries exactly that edge's interactable id; no
`InteractionEvent` is emitted on a tick without an action trigger or without
an `InRange` edge. -/
theorem claim_C7 (kb : Keyboard) (inr : Option String) :
    (∀ id, inr = some id →
      ({ state := PState.Action, direction := Direction.Right } : Trigger) ∈
        (handle_keys kb inr).1 →
      (handle_keys kb inr).2 = [id]) ∧
    (({ state := PState.Action, direction := Direction.Right } : Trigger) ∉
        (handle_keys kb inr).1 →
      (handle_keys kb inr).2 = []) ∧
    (inr = none → (handle_keys kb inr).2 = []) := by
  refine ⟨?_, ?_, ?_⟩
  · intro id hid hmem
    rw [handle_keys_events_eq, if_pos ((handle_keys_action_trigger kb inr).mp hmem),
      hid]
  · intro hmem
    rw [handle_keys_events_eq, if_neg]
    intro hc
    exact hmem ((handle_keys_action_trigger kb inr).mpr hc)
  · intro h
    rw [handle_keys_events_eq, h]
    split <;> rfl

/-- Witness for C7: ArrowUp just-pressed alone while in range of the fireplace
emits exactly the fireplace event. -/
theorem claim_C7_witness :
    (handle_keys (Keyboard.mk false false true false false false false)
      (some "fireplace")).2 = ["fireplace"] :=
  (claim_C7 (Keyboard.mk false false true false false false false)
    (some "fireplace")).1 "fireplace" rfl (by decide)

/-- Claim C10: if ArrowLeft or ArrowRight is just-pressed on the same tick as
ArrowUp, the key-handling step emits no Acting trigger and no
`InteractionEvent` for that tick (the walking trigger takes priority), even
when the player currently holds an `InRange` edge. -/
theorem claim_C10 (kb : Keyboard) (inr : Option String)
    (h : kb.just_pressed_left = true ∨ kb.just_pressed_right = true) :
    ({ state := PState.Action, direction := Direction.Right } : Trigger) ∉
        (handle_keys kb inr).1 ∧
    (handle_keys kb inr).2 = [] := by
  constructor
  · intro hc
    obtain ⟨h1, h2, _⟩ := (handle_keys_action_trigger kb inr).mp hc
    rcases h with h | h <;> simp_all
  · rw [handle_keys_events_eq, if_neg]
    rintro ⟨h1, h2, _⟩
    rcases h with h | h <;> simp_all

/-- Witness for C10: ArrowLeft and ArrowUp just-pressed together while in
range of the fireplace produce no Acting trigger and no event. -/
theorem claim_C10_witness :
    ({ state := PState.Action, direction := Direction.Right } : Trigger) ∉
      (handle_keys (Keyboard.mk true false true false false false false)
        (some "fireplace")).1 ∧
    (handle_keys (Keyboard.mk true false true false false false false)
      (some "fireplace")).2 = [] :=
  claim_C10 (Keyboard.mk true false true false false false false)
    (some "fireplace") (Or.inl rfl)

/-- One interaction-event step never touches the `Interactable.first` flag. -/
theorem handle_interaction_step_first (a : SpriteAssets) (acc : Furnishing × Bool)
    (e : String) : (handle_interaction_step a acc e).1.first = acc.1.first := by
  rcases acc with ⟨⟨i, st, sp, fi, au⟩, b⟩
  unfold handle_interaction_step
  split
  · cases st <;> rfl
  · rfl

/-- Reading the whole event queue never touches the `Interactable.first`
flag. -/
theorem handle_interaction_fold_first (a : SpriteAssets) (evs : List String) :
    ∀ acc : Furnishing × Bool,
      (evs.foldl (handle_interaction_step a) acc).1.first = acc.1.first := by
  induction evs with
  | nil => intro acc; rfl
  | cons e rest ih =>
      intro acc
      rw [List.foldl_cons, ih, handle_interaction_step_first]

/-- Once the `State` component has been written, later events keep the
change flag set. -/
theorem handle_interaction_step_snd (a : SpriteAssets) (acc : Furnishing × Bool)
    (e : String) (h : acc.2 = true) : (handle_interaction_step a acc e).2 = true := by
  rcases acc with ⟨⟨i, st, sp, fi, au⟩, b⟩
  unfold handle_interaction_step
  split
  · cases st <;> rfl
  · exact h

/-- The change flag stays set across the rest of the event queue. -/
theorem handle_interaction_fold_snd_mono (a : SpriteAssets) (evs : List String) :
    ∀ acc : Furnishing × Bool, acc.2 = true →
      (evs.foldl (handle_interaction_step a) acc).2 = true := by
  induction evs with
  | nil => intro acc h; exact h
  | cons e rest ih =>
      intro acc h
      rw [List.foldl_cons]
      exact ih _ (handle_interaction_step_snd a acc e h)

/-- If `handle_interaction` reports no state write, it left the furnishing
exactly as it found it. -/
theorem handle_interaction_not_changed (a : SpriteAssets) (evs : List String) :
    ∀ f : Furnishing, (handle_interaction a f evs).2 = false →
      handle_interaction a f evs = (f, false) := by
  unfold handle_interaction
  induction evs with
  | nil => intro f _; rfl
  | cons e rest ih =>
      intro f h
      rw [List.foldl_cons] at h ⊢
      by_cases hc : e = f.id
      · exfalso
        have hmono : (rest.foldl (handle_interaction_step a)
            (handle_interaction_step a (f, false) e)).2 = true := by
          apply handle_interaction_fold_snd_mono
          rcases f with ⟨i, st, sp, fi, au⟩
          unfold handle_interaction_step
          simp only [hc, if_pos]
          cases st <;> rfl
        simp [hmono] at h
      · have hstep : handle_interaction_step a (f, false) e = (f, false) := by
          unfold handle_interaction_step
          simp [hc]
        rw [hstep] at h ⊢
        exact ih f h

/-- `handle_sound` only touches the audio sink flag: the `first` flag is
untouched. -/
theorem handle_sound_first (f : Furnishing) (changed : Bool) :
    (handle_sound f changed).first = f.first := by
  rcases f with ⟨i, st, sp, fi, au⟩
  unfold handle_sound
  split
  · cases st <;> rfl
  · rfl

/-- `handle_sound` leaves the behavior state untouched. -/
theorem handle_sound_state (f : Furnishing) (changed : Bool) :
    (handle_sound f changed).state = f.state := by
  rcases f with ⟨i, st, sp, fi, au⟩
  unfold handle_sound
  split
  · cases st <;> rfl
  · rfl

/-- What `handle_interaction_disable_highlight` does to the `first` flag. -/
theorem disable_highlight_first_eq (f : Furnishing) (changed : Bool) :
    (handle_interaction_disable_highlight f changed).first =
      if changed = true ∧ f.state = FState.Running then false else f.first := by
  unfold handle_interaction_disable_highlight
  split <;> rfl

/-- `handle_interaction_disable_highlight` leaves the behavior state
untouched. -/
theorem disable_highlight_state (f : Furnishing) (changed : Bool) :
    (handle_interaction_disable_highlight f changed).state = f.state := by
  unfold handle_interaction_disable_highlight
  split <;> rfl

/-- A cleared `first` flag survives any furnishing tick. -/
theorem furnishing_tick_first_mono (a : SpriteAssets) (f : Furnishing)
    (evs : List String) (h : f.first = false) :
    (furnishing_tick a f evs).first = false := by
  unfold furnishing_tick
  rw [handle_sound_first, disable_highlight_first_eq]
  have h1 : (handle_interaction a f evs).1.first = f.first :=
    handle_interaction_fold_first a evs (f, false)
  rw [h1, h]
  split <;> rfl

/-- The Running-implies-cleared-flag invariant is preserved by every
furnishing tick. -/
theorem furnishing_tick_inv (a : SpriteAssets) (f : Furnishing)
    (hf : f.state = FState.Running → f.first = false) (evs : List String) :
    (furnishing_tick a f evs).state = FState.Running →
      (furnishing_tick a f evs).first = false := by
  intro hrun
  unfold furnishing_tick at hrun ⊢
  rw [handle_sound_state, disable_highlight_state] at hrun
  rw [handle_sound_first, disable_highlight_first_eq]
  by_cases hc : (handle_interaction a f evs).2 = true
  · simp [hc, hrun]
  · have hb : (handle_interaction a f evs).2 = false := by
      simpa using hc
    have heq := handle_interaction_not_changed a evs f hb
    rw [heq] at hrun ⊢
    simp only [hrun]
    simp [hf hrun]

/-- Claim C8: for every furnishing and every `InteractionEvent`: if the
event's id matches the furnishing's id, the furnishing's binary state toggles
(Off becomes Running, Running becomes Off); if the event's id does not match,
the furnishing's state, sprite/animation, and audio are all left completely
unchanged. -/
theorem claim_C8 (a : SpriteAssets) (f : Furnishing) (e : String) :
    (e = f.id → (furnishing_tick a f [e]).state =
      (if f.state = FState.Off then FState.Running else FState.Off)) ∧
    (e ≠ f.id → furnishing_tick a f [e] = f) := by
  rcases f with ⟨i, st, sp, fi, au⟩
  constructor
  · intro he
    cases st <;>
      simp [furnishing_tick, handle_interaction, handle_interaction_step, he,
        handle_interaction_disable_highlight, handle_sound]
  · intro he
    simp [furnishing_tick, handle_interaction, handle_interaction_step, he,
      handle_interaction_disable_highlight, handle_sound]

/-- Witness for C8: a matching event toggles the freshly spawned fireplace
from Off, and a stereo-addressed event leaves the fireplace exactly as it
was. -/
theorem claim_C8_witness :
    ((furnishing_tick fireplace_assets fireplace_init ["fireplace"]).state =
      (if fireplace_init.state = FState.Off then FState.Running else FState.Off)) ∧
    furnishing_tick fireplace_assets fireplace_init ["stereo"] = fireplace_init :=
  ⟨(claim_C8 fireplace_assets fireplace_init "fireplace").1 rfl,
    (claim_C8 fireplace_assets fireplace_init "stereo").2 (by decide)⟩

/-- Claim C9: for every furnishing started in Off, on the first transition
into Running the `firstInteraction` flag is cleared, and it stays cleared in
every subsequently reachable state (in every reachable state, Running implies
the flag is `false`, and once `false` no tick ever sets it back to `true`). -/
theorem claim_C9 (a : SpriteAssets) (start f : Furnishing) (evs : List String)
    (hstart : start.state = FState.Off) (hreach : ReachableF a start f) :
    (f.state = FState.Running → f.first = false) ∧
    (f.first = false → (furnishing_tick a f evs).first = false) := by
  constructor
  · induction hreach with
    | refl =>
        intro h
        rw [hstart] at h
        exact FState.noConfusion h
    | step g evts hg ih => exact furnishing_tick_inv a g ih evts
  · exact furnishing_tick_first_mono a f evs

/-- Witness for C9: the fireplace after one matching interaction is Running
with the flag cleared, and a further tick keeps it cleared. -/
theorem claim_C9_witness :
    ((furnishing_tick fireplace_assets fireplace_init ["fireplace"]).state =
        FState.Running →
      (furnishing_tick fireplace_assets fireplace_init ["fireplace"]).first =
        false) ∧
    ((furnishing_tick fireplace_assets fireplace_init ["fireplace"]).first =
        false →
      (furnishing_tick fireplace_assets
        (furnishing_tick fireplace_assets fireplace_init ["fireplace"])
        ["fireplace"]).first = false) :=
  claim_C9 fireplace_assets fireplace_init
    (furnishing_tick fireplace_assets fireplace_init ["fireplace"]) ["fireplace"]
    rfl (ReachableF.step fireplace_init ["fireplace"] (ReachableF.refl))

/-- Claim C4: for every interactor, one tick of the proximity update
satisfies: with no previous `InRange` edge and an overlap found, an `InRange`
edge carrying that interactable's id is inserted and a `Highlight` with phase
offset equal to the current elapsed time is attached to it; with a previous
`InRange` edge and no overlap found, the edge is removed in that same tick;
with an unchanged target, the `InRange` edge is unchanged. -/
theorem claim_C4 (s : ProxState) (scan : List (String × Bool)) (elapsed : ℚ) :
    (∀ b, s.inRange = none → found_overlap scan = some b →
      (detect_overlaps s scan elapsed).inRange = some b ∧
      (detect_overlaps s scan elapsed).highlight b = some elapsed) ∧
    (s.inRange.isSome = true → found_overlap scan = none →
      (detect_overlaps s scan elapsed).inRange = none) ∧
    (s.inRange = found_overlap scan →
      (detect_overlaps s scan elapsed).inRange = s.inRange) := by
  refine ⟨?_, ?_, ?_⟩
  · intro b h1 h2
    unfold detect_overlaps
    rw [h1, h2]
    simp
  · intro h1 h2
    obtain ⟨a, ha⟩ := Option.isSome_iff_exists.mp h1
    unfold detect_overlaps
    rw [ha, h2]
  · intro h
    unfold detect_overlaps
    cases hin : s.inRange with
    | none => rw [hin] at h; rw [← h]
    | some a => rw [hin] at h; rw [← h]; simp

/-- Witness for C4: entering range of the fireplace inserts the edge and a
fresh highlight; leaving empties the edge; staying on the same target keeps
it. -/
theorem claim_C4_witness :
    ((detect_overlaps (ProxState.mk none fun _ => none) [("fireplace", true)]
        3).inRange = some "fireplace" ∧
      (detect_overlaps (ProxState.mk none fun _ => none) [("fireplace", true)]
        3).highlight "fireplace" = some 3) ∧
    (detect_overlaps (ProxState.mk (some "fireplace") fun _ => none)
      [("fireplace", false)] 4).inRange = none ∧
    (detect_overlaps (ProxState.mk (some "fireplace") fun _ => none)
        [("fireplace", true)] 5).inRange =
      (ProxState.mk (some "fireplace") fun _ => none).inRange :=
  ⟨(claim_C4 (ProxState.mk none fun _ => none) [("fireplace", true)] 3).1
      "fireplace" rfl rfl,
    (claim_C4 (ProxState.mk (some "fireplace") fun _ => none)
      [("fireplace", false)] 4).2.1 rfl rfl,
    (claim_C4 (ProxState.mk (some "fireplace") fun _ => none)
      [("fireplace", true)] 5).2.2 rfl⟩

/-- Claim C2 (divergence witness): in the degenerate fireplace config with
`first_index = last_index = 0` and current atlas index `0`, every draw of
`rng.random_range(0..=0)` equals `0`, so the resampling loop of
`handle_animations` never terminates: it returns no frame however many draws
it is allowed. -/
theorem claim_C2 : ∀ fuel start : ℕ, resample_loop (fun _ => 0) 0 start fuel = none := by
  intro fuel
  induction fuel with
  | zero => intro start; rfl
  | succ n ih =>
      intro start
      unfold resample_loop
      simpa using ih (start + 1)

/-- The scan loop of `detect_overlaps` removes exactly the highlights of
interactables that appear as non-overlapping in the scan. -/
theorem strip_highlights_eq (scan : List (String × Bool))
    (hl : String → Option ℚ) (x : String) :
    strip_highlights scan hl x = if (x, false) ∈ scan then none else hl x := by
  unfold strip_highlights
  induction scan generalizing hl with
  | nil => simp
  | cons e rest ih =>
      rcases e with ⟨id, ov⟩
      rw [List.foldl_cons]
      cases ov
      · dsimp only
        rw [ih]
        by_cases hx : x = id <;>
          by_cases hm : ((x, false) : String × Bool) ∈ rest <;>
            simp [hx, hm, List.mem_cons]
      · dsimp only
        rw [ih]
        simp [List.mem_cons]

/-- Claim C1, amended: after one pass of `detect_overlaps`, the `Highlight` of
interactable `x` is a fresh one (offset = current elapsed time) exactly when
`x` is the scan's found overlap target and was not already the recorded
in-range target; otherwise it has been removed exactly when `x` appears as
non-overlapping in the scan; otherwise it is whatever it was before.  In
particular, on a direct in-range switch from A to B, A's `Highlight` is
removed only when A no longer overlaps, and the `firstInteraction` flag plays
no role in `Highlight` presence. -/
theorem claim_C1_theorem (s : ProxState) (scan : List (String × Bool))
    (elapsed : ℚ) (x : String) :
    (detect_overlaps s scan elapsed).highlight x =
      if found_overlap scan = some x ∧ s.inRange ≠ some x then some elapsed
      else if (x, false) ∈ scan then none
      else s.highlight x := by
  unfold detect_overlaps
  cases hin : s.inRange with
  | none =>
      cases hf : found_overlap scan with
      | none => simp [strip_highlights_eq]
      | some b =>
          by_cases hx : x = b
          · subst hx
            simp
          · simp [hx, Ne.symm hx, strip_highlights_eq]
  | some a =>
      cases hf : found_overlap scan with
      | none => simp [strip_highlights_eq]
      | some b =>
          by_cases hab : a = b
          · subst hab
            simp [strip_highlights_eq]
          · by_cases hx : x = b
            · subst hx
              simp [hab, Ne.symm hab]
            · simp [hab, hx, Ne.symm hx, strip_highlights_eq]

/-- Overlap scan of the first counterexample tick: the interactor overlaps
the fireplace only. -/
def cex_scan_1 : List (String × Bool) := [("fireplace", true), ("stereo", false)]

/-- Overlap scan of the second counterexample tick: the interactor overlaps
both interactables, so the last-iterated one (the stereo) wins. -/
def cex_scan_2 : List (String × Bool) := [("fireplace", true), ("stereo", true)]

/-- The scene after two ticks: enter the fireplace's range, then overlap both
furnishings so the in-range target switches directly to the stereo. -/
def cex_world : World :=
  world_tick (world_tick world_init cex_scan_1 0 []) cex_scan_2 1 []

/-- The scene after two ticks in the fireplace's range with an interaction on
the second tick: the fireplace is Running with `first` cleared, the interactor
still in range, and the `Highlight` still attached. -/
def cex_world_2 : World :=
  world_tick (world_tick world_init cex_scan_1 0 []) cex_scan_1 1 ["fireplace"]

/-- Counterexample to claim C1, in two reachable states.  In `cex_world` the
in-range target switched directly from the fireplace to the stereo while the
fireplace still overlaps, and the fireplace keeps its `Highlight` even though
it is no longer the in-range target, so the claimed iff fails and the stale
`Highlight` is not removed in the tick of the switch.  In `cex_world_2` the
fireplace was triggered while in range: its `firstInteraction` flag is now
`false`, yet the `Highlight` is still attached, failing the iff again. -/
theorem claim_C1_counterexample :
    (ReachableW cex_world ∧
      (cex_world.prox.highlight "fireplace").isSome = true ∧
      cex_world.prox.inRange = some "stereo" ∧
      cex_world.fireplace.first = true ∧
      ¬((cex_world.prox.highlight "fireplace").isSome = true ↔
        cex_world.prox.inRange = some "fireplace" ∧
          cex_world.fireplace.first = true)) ∧
    (ReachableW cex_world_2 ∧
      (cex_world_2.prox.highlight "fireplace").isSome = true ∧
      cex_world_2.prox.inRange = some "fireplace" ∧
      cex_world_2.fireplace.first = false ∧
      ¬((cex_world_2.prox.highlight "fireplace").isSome = true ↔
        cex_world_2.prox.inRange = some "fireplace" ∧
          cex_world_2.fireplace.first = true)) := by
  refine ⟨⟨ReachableW.step _ cex_scan_2 1 []
      (ReachableW.step _ cex_scan_1 0 [] ReachableW.init), ?_, ?_, ?_, ?_⟩,
    ⟨ReachableW.step _ cex_scan_1 1 ["fireplace"]
      (ReachableW.step _ cex_scan_1 0 [] ReachableW.init), ?_, ?_, ?_, ?_⟩⟩ <;>
    decide

/-- The non-degenerate half of the random-non-repeat advance: as soon as the
draw stream produces a value different from the current atlas index, the
resampling loop terminates with that value. -/
theorem resample_loop_of_ne (draws : ℕ → ℕ) (cur : ℕ) :
    ∀ fuel start, (∃ j, start ≤ j ∧ j < start + fuel ∧ draws j ≠ cur) →
      ∃ v, resample_loop draws cur start fuel = some v := by
  intro fuel
  induction fuel with
  | zero =>
      rintro start ⟨j, h1, h2, _⟩
      exfalso
      omega
  | succ n ih =>
      rintro start ⟨j, h1, h2, h3⟩
      unfold resample_loop
      by_cases hd : draws start = cur
      · rw [if_pos hd]
        apply ih (start + 1)
        have hjs : j ≠ start := fun h => h3 (h ▸ hd)
        exact ⟨j, by omega, by omega, h3⟩
      · rw [if_neg hd]
        exact ⟨draws start, rfl⟩

/-- Whenever the resampling loop of the fireplace's `handle_animations`
returns a frame, it differs from the previous index and, provided every draw
of `rng.random_range(first..=last)` lies in `[first, last]`, lies in
`[first, last]` as well. -/
theorem resample_loop_sound (draws : ℕ → ℕ) (first_index last_index cur : ℕ)
    (hb : ∀ i, first_index ≤ draws i ∧ draws i ≤ last_index) :
    ∀ fuel start v, resample_loop draws cur start fuel = some v →
      v ≠ cur ∧ first_index ≤ v ∧ v ≤ last_index := by
  intro fuel
  induction fuel with
  | zero => intro start v h; exact Option.noConfusion h
  | succ n ih =>
      intro start v h
      unfold resample_loop at h
      by_cases hd : draws start = cur
      · rw [if_pos hd] at h
        exact ih (start + 1) v h
      · rw [if_neg hd] at h
        have hv : draws start = v := Option.some.inj h
        subst hv
        exact ⟨hd, (hb start).1, (hb start).2⟩

end Playground
